import Mathlib

/-!
Verification development for the tinyframe-rs framing codec.

The definitions below are a shallow embedding of `src/tiny_frame.rs` and
`src/number.rs`.  Machine integers (`u8`/`u16`/`u32`/`u64` and the generic
ID/Len/Type field types) are represented as `Nat` together with the field
width in bytes; overflow is made explicit with `% 2 ^ (8 * w)`.  Fallible
operations (Rust panics via `unwrap` or out-of-bounds `Vec::remove`)
return `Option`, with `none` marking the panic.

The checksum suite lives in `src/checksum.rs`, which is not part of the
sources available here; its definitions are modelled from the
specification (section 4.2) and validated against the golden byte
sequences recorded in `src/tests.rs` (`compare_with_c`).
-/

/-- Big-endian encoding of the low `w` bytes of a value
(`number.rs`, `write_to_buf`: appends `to_be` bytes of the value). -/
def writeBE : Nat → Nat → List Nat
  | 0, _ => []
  | w + 1, v => (v >>> (8 * w)) % 256 :: writeBE w v

/-- Read-accumulate step of `number.rs` (`add_be_byte`): the one-byte types
return the byte itself, the wider types compute `(self << 8) | byte` in the
type's width. -/
def addBeByte (w v b : Nat) : Nat :=
  if w = 1 then b else ((v <<< 8) % 2 ^ (8 * w)) ||| b

/-- `number.rs` `increment_id`: `wrapping_add(1) & (max_value >> 1)`. -/
def incrementId (w v : Nat) : Nat :=
  ((v + 1) % 2 ^ (8 * w)) &&& ((2 ^ (8 * w) - 1) >>> 1)

/-- `number.rs` `add_master_peer_bit`: `|= 1 << (size * 8 - 1)`. -/
def addMasterPeerBit (w v : Nat) : Nat :=
  v ||| (1 <<< (8 * w - 1))

/-- `number.rs` `from_usize`: `None` when the value exceeds the type's
maximum, otherwise the value itself. -/
def fromUsize (w n : Nat) : Option Nat :=
  if n > 2 ^ (8 * w) - 1 then none else some n

/-- Checksum variants (`Checksum` in the missing `checksum.rs`, as used by
`tiny_frame.rs`). -/
inductive Checksum where
  | none
  | xor
  | crc16
  | crc32
deriving DecidableEq, Repr

/-- Modelled from the spec: serialized digest width of each checksum
variant (None: 0, XOR: 1, CRC16: 2, CRC32: 4 bytes); `checksum.rs` is not
among the available sources. -/
def Checksum.digestWidth : Checksum → Nat
  | .none => 0
  | .xor => 1
  | .crc16 => 2
  | .crc32 => 4

/-- One bit-iteration of a reflected CRC: shift right, conditionally xor
the reflected polynomial. -/
def crcStep (poly crc : Nat) : Nat :=
  if crc % 2 = 1 then (crc >>> 1) ^^^ poly else crc >>> 1

/-- `n` bit-iterations of `crcStep`. -/
def crcRounds (poly : Nat) : Nat → Nat → Nat
  | 0, crc => crc
  | n + 1, crc => crcRounds poly n (crcStep poly crc)

/-- Modelled from the spec: CRC-16 (IBM/Modbus polynomial, reflected form
`0xA001`, init 0) over a byte list; `checksum.rs` is not among the
available sources.  Matches the golden bytes in `tests.rs`. -/
def crc16Sum (bytes : List Nat) : Nat :=
  bytes.foldl (fun crc b => crcRounds 0xA001 8 (crc ^^^ b)) 0

/-- Modelled from the spec: CRC-32 (IEEE 802.3 polynomial, reflected form
`0xEDB88320`, init `0xFFFFFFFF`, final xor `0xFFFFFFFF`) over a byte list;
`checksum.rs` is not among the available sources.  Matches the golden
bytes in `tests.rs`. -/
def crc32Sum (bytes : List Nat) : Nat :=
  (bytes.foldl (fun crc b => crcRounds 0xEDB88320 8 (crc ^^^ b)) 0xFFFFFFFF) ^^^ 0xFFFFFFFF

/-- Modelled from the spec: `Checksum::sum`, the digest of a byte list as a
`u32` value (XOR: xor of all bytes then bitwise NOT of the byte;
`checksum.rs` is not among the available sources).  The `None` variant
writes no digest, the value 0 here is never observed. -/
def Checksum.sum : Checksum → List Nat → Nat
  | .none, _ => 0
  | .xor, bytes => (bytes.foldl (fun a b => a ^^^ b) 0) ^^^ 0xFF
  | .crc16, bytes => crc16Sum bytes
  | .crc32, bytes => crc32Sum bytes

/-- Modelled from the spec: `Checksum::append_sum`, appending the
big-endian digest of the buffer to the buffer itself (nothing for `None`);
`checksum.rs` is not among the available sources. -/
def Checksum.appendSum (c : Checksum) (buf : List Nat) : List Nat :=
  buf ++ writeBE c.digestWidth (c.sum buf)

/-- Peer types (`Peer` in `tiny_frame.rs`). -/
inductive Peer where
  | slave
  | master
deriving DecidableEq, Repr

/-- Event listener results (`ListenerResult` in `tiny_frame.rs`). -/
inductive ListenerResult where
  | next
  | stay
  | renew
  | close
deriving DecidableEq, Repr

/-- A TinyFrame message (`Msg` in `tiny_frame.rs`); field values are the
numeric contents of the generic `ID`/`Type` fields. -/
structure Msg where
  frameId : Nat
  isResponse : Bool
  msgType : Nat
  data : List Nat
deriving DecidableEq, Repr

/-- Parser states (`ParserState` in `tiny_frame.rs`). -/
inductive ParserState where
  | sof
  | len
  | headCksum
  | id
  | type
  | data
  | dataCksum
deriving DecidableEq, Repr

/-- An ID listener registration: the fields of the `IDListener` payload
held behind the `Rc`, with `alive` standing for the `Weak::upgrade`
succeeding (the caller still owns the handle).  The callback is modelled
as a pure function of the received message. -/
structure IDListenerEntry where
  uid : Nat
  id : Nat
  cb : Msg → ListenerResult
  timeoutMax : Option Nat
  alive : Bool

/-- A type listener registration (`TypeListener` + `TypeListenerRef`). -/
structure TypeListenerEntry where
  uid : Nat
  msgType : Nat
  cb : Msg → ListenerResult
  alive : Bool

/-- A generic listener registration (`GenericListener` +
`GenericListenerRef`). -/
structure GenericListenerEntry where
  uid : Nat
  cb : Msg → ListenerResult
  alive : Bool

/-- Errors of `send` (`SendError` in `tiny_frame.rs`). -/
inductive SendError where
  | tooLong
  | noWrite
deriving DecidableEq, Repr

/-- A TinyFrame instance (`TinyFrame<Len, ID, Type>` in `tiny_frame.rs`).
The width parameters are the byte sizes of the three generic field types.
The write sink and the `claim_tx`/`release_tx` hooks are modelled by
presence flags plus the event trace that `sendFrame` returns. -/
structure TinyFrame (wLen wId wType : Nat) where
  peerBit : Peer
  nextId : Nat
  nextListenerId : Nat
  state : ParserState
  parserTimeoutTicks : Nat
  parserTimeout : Option Nat
  partLen : Nat
  id : Nat
  len : Nat
  recvType : Nat
  recvCksum : Nat
  data : List Nat
  sofByte : Option Nat
  chunkSize : Nat
  cksum : Checksum
  idListeners : List (IDListenerEntry × Option Nat)
  typeListeners : List TypeListenerEntry
  genericListeners : List GenericListenerEntry
  hasWrite : Bool
  hasClaimTx : Bool
  hasReleaseTx : Bool

/-- `TinyFrame::new`. -/
def TinyFrame.new (wLen wId wType : Nat) (peerBit : Peer) : TinyFrame wLen wId wType where
  peerBit := peerBit
  nextId := 0
  nextListenerId := 0
  state := .sof
  parserTimeoutTicks := 0
  parserTimeout := none
  partLen := 0
  id := 0
  len := 0
  recvType := 0
  recvCksum := 0
  data := []
  sofByte := none
  chunkSize := 1024
  cksum := .xor
  idListeners := []
  typeListeners := []
  genericListeners := []
  hasWrite := false
  hasClaimTx := false
  hasReleaseTx := false

variable {wLen wId wType : Nat}

/-- `TinyFrame::reset_parser`: only the state field is set back to `Sof`. -/
def resetParser (tf : TinyFrame wLen wId wType) : TinyFrame wLen wId wType :=
  { tf with state := .sof }

/-- `TinyFrame::add_id_listener` (the registry side; the returned handle is
represented by the entry itself being alive). -/
def addIdListener (tf : TinyFrame wLen wId wType) (id : Nat) (cb : Msg → ListenerResult)
    (timeout : Option Nat) : TinyFrame wLen wId wType :=
  { tf with
    nextListenerId := tf.nextListenerId + 1
    idListeners := tf.idListeners ++
      [(⟨tf.nextListenerId, id, cb, timeout, true⟩, timeout)] }

/-- `TinyFrame::remove_id_listener`: find the first entry with the given
uid and remove it (no-op when absent). -/
def removeIdListener : List (IDListenerEntry × Option Nat) → Nat →
    List (IDListenerEntry × Option Nat)
  | [], _ => []
  | (e, r) :: rest, uid =>
    if e.uid = uid then rest else (e, r) :: removeIdListener rest uid

/-- `TinyFrame::remove_type_listener`. -/
def removeTypeListener : List TypeListenerEntry → Nat → List TypeListenerEntry
  | [], _ => []
  | e :: rest, uid => if e.uid = uid then rest else e :: removeTypeListener rest uid

/-- `TinyFrame::remove_generic_listener`. -/
def removeGenericListener : List GenericListenerEntry → Nat → List GenericListenerEntry
  | [], _ => []
  | e :: rest, uid => if e.uid = uid then rest else e :: removeGenericListener rest uid

/-- Helper of `renew_id_listener`: set the remaining ticks of the first
entry with the given uid. -/
def setRemainingFirst (uid tm : Nat) : List (IDListenerEntry × Option Nat) →
    List (IDListenerEntry × Option Nat)
  | [] => []
  | (e2, r) :: rest =>
    if e2.uid = uid then (e2, some tm) :: rest else (e2, r) :: setRemainingFirst uid tm rest

/-- `TinyFrame::renew_id_listener`: reset the remaining ticks of the first
entry with the given uid to `timeout_max`, when one is set. -/
def renewIdListener (tf : TinyFrame wLen wId wType) (e : IDListenerEntry) :
    TinyFrame wLen wId wType :=
  match e.timeoutMax with
  | Option.none => tf
  | some tm => { tf with idListeners := setRemainingFirst e.uid tm tf.idListeners }

/-- `TinyFrame::handle_received`: build the message from the parser fields,
swap the three registries out of the instance, dispatch against the local
copies (removals and renewals hit the instance's now-empty registries),
then put the local copies back in front of anything newly registered.
Returns the dispatched message and the uids of the callbacks that were
invoked, in invocation order. -/
def handleReceived (tf : TinyFrame wLen wId wType) :
    TinyFrame wLen wId wType × Msg × List Nat :=
  let msg : Msg := ⟨tf.id, false, tf.recvType, tf.data⟩
  let idLs := tf.idListeners
  let tyLs := tf.typeListeners
  let genLs := tf.genericListeners
  let tf := { tf with idListeners := [], typeListeners := [], genericListeners := [] }
  let step1 := idLs.foldl
    (fun (p : TinyFrame wLen wId wType × List Nat) el =>
      let e := el.1
      if e.alive ∧ e.id = msg.frameId then
        let tf2 := match e.cb msg with
          | .renew => renewIdListener p.1 e
          | .close => { p.1 with idListeners := removeIdListener p.1.idListeners e.uid }
          | _ => p.1
        (tf2, p.2 ++ [e.uid])
      else p) (tf, [])
  let step2 := tyLs.foldl
    (fun (p : TinyFrame wLen wId wType × List Nat) e =>
      if e.alive ∧ e.msgType = msg.msgType then
        let tf2 := match e.cb msg with
          | .close => { p.1 with typeListeners := removeTypeListener p.1.typeListeners e.uid }
          | _ => p.1
        (tf2, p.2 ++ [e.uid])
      else p) (step1.1, step1.2)
  let step3 := genLs.foldl
    (fun (p : TinyFrame wLen wId wType × List Nat) e =>
      if e.alive then
        let tf2 := match e.cb msg with
          | .close =>
            { p.1 with genericListeners := removeGenericListener p.1.genericListeners e.uid }
          | _ => p.1
        (tf2, p.2 ++ [e.uid])
      else p) (step2.1, step2.2)
  let tf := step3.1
  (({ tf with
      idListeners := idLs ++ tf.idListeners
      typeListeners := tyLs ++ tf.typeListeners
      genericListeners := genLs ++ tf.genericListeners }), msg, step3.2)

/-- The `begin_frame!` macro of `accept_byte`. -/
def beginFrame (tf : TinyFrame wLen wId wType) : TinyFrame wLen wId wType :=
  { tf with
    state := .id
    partLen := 0
    id := 0
    len := 0
    recvType := 0
    recvCksum := 0
    data := [] }

/-- A frame dispatched by the parser: the message plus the uids of the
listener callbacks that were invoked for it. -/
abbrev Emit := Msg × List Nat

/-- The checksum-byte collection step of the `collect_cksum!` macro: the
new `recv_cksum` accumulator value and whether the collection is complete.
The CRC variants test `part_len` against the digest width but nothing ever
increments `part_len` here, mirroring the source. -/
def collectCksumStep (tf : TinyFrame wLen wId wType) (b : Nat) : Nat × Bool :=
  match tf.cksum with
  | .none | .xor => (b, true)
  | .crc16 => (((tf.recvCksum <<< 8) % 2 ^ 32) ||| b, decide (tf.partLen = 2))
  | .crc32 => (((tf.recvCksum <<< 8) % 2 ^ 32) ||| b, decide (tf.partLen = 4))

/-- `accept_byte`, `ParserState::Sof` arm. -/
def stepSof (tf : TinyFrame wLen wId wType) (b : Nat) :
    Option (TinyFrame wLen wId wType × Option Emit) :=
  match tf.sofByte with
  | some s =>
    if b = s then
      let tf2 : TinyFrame wLen wId wType := beginFrame tf
      some ({ tf2 with data := tf2.data ++ [b] }, Option.none)
    else some (tf, Option.none)
  | Option.none => some (tf, Option.none)

/-- `accept_byte`, `ParserState::ID` arm (`collect_number!`). -/
def stepId (tf : TinyFrame wLen wId wType) (b : Nat) :
    Option (TinyFrame wLen wId wType × Option Emit) :=
  let tf2 : TinyFrame wLen wId wType :=
    { tf with data := tf.data ++ [b], id := addBeByte wId tf.id b, partLen := tf.partLen + 1 }
  if tf2.partLen = wId then
    some ({ tf2 with partLen := 0, state := .len }, Option.none)
  else some (tf2, Option.none)

/-- `accept_byte`, `ParserState::Len` arm (`collect_number!`). -/
def stepLen (tf : TinyFrame wLen wId wType) (b : Nat) :
    Option (TinyFrame wLen wId wType × Option Emit) :=
  let tf2 : TinyFrame wLen wId wType :=
    { tf with data := tf.data ++ [b], len := addBeByte wLen tf.len b, partLen := tf.partLen + 1 }
  if tf2.partLen = wLen then
    some ({ tf2 with partLen := 0, state := .type }, Option.none)
  else some (tf2, Option.none)

/-- `accept_byte`, `ParserState::Type` arm (`collect_number!`). -/
def stepType (tf : TinyFrame wLen wId wType) (b : Nat) :
    Option (TinyFrame wLen wId wType × Option Emit) :=
  let tf2 : TinyFrame wLen wId wType :=
    { tf with data := tf.data ++ [b], recvType := addBeByte wType tf.recvType b,
              partLen := tf.partLen + 1 }
  if tf2.partLen = wType then
    let tf3 : TinyFrame wLen wId wType := { tf2 with partLen := 0 }
    if tf3.cksum = Checksum.none then some ({ tf3 with state := .data }, Option.none)
    else some ({ tf3 with state := .headCksum, recvCksum := 0 }, Option.none)
  else some (tf2, Option.none)

/-- `accept_byte`, `ParserState::HeadCksum` arm. -/
def stepHeadCksum (tf : TinyFrame wLen wId wType) (b : Nat) :
    Option (TinyFrame wLen wId wType × Option Emit) :=
  let st := collectCksumStep tf b
  let tf2 : TinyFrame wLen wId wType := { tf with recvCksum := st.1 }
  if st.2 then
    let tf3 : TinyFrame wLen wId wType := { tf2 with partLen := 0 }
    if tf3.cksum.sum tf3.data ≠ tf3.recvCksum then
      some (resetParser tf3, Option.none)
    else
      let tf4 : TinyFrame wLen wId wType := { tf3 with data := [] }
      if tf4.len = 0 then
        let r := handleReceived tf4
        some (resetParser r.1, some (r.2.1, r.2.2))
      else some ({ tf4 with state := .data }, Option.none)
  else some (tf2, Option.none)

/-- `accept_byte`, `ParserState::Data` arm; `none` is the
`Len::from_usize(part_len).unwrap()` panic. -/
def stepData (tf : TinyFrame wLen wId wType) (b : Nat) :
    Option (TinyFrame wLen wId wType × Option Emit) :=
  let tf2 : TinyFrame wLen wId wType := { tf with data := tf.data ++ [b], partLen := tf.partLen + 1 }
  match fromUsize wLen tf2.partLen with
  | Option.none => none
  | some v =>
    if tf2.len = v then
      if tf2.cksum = Checksum.none then
        let r := handleReceived tf2
        some (resetParser r.1, some (r.2.1, r.2.2))
      else
        some ({ tf2 with state := .dataCksum, partLen := 0, recvCksum := 0 }, Option.none)
    else some (tf2, Option.none)

/-- `accept_byte`, `ParserState::DataCksum` arm. -/
def stepDataCksum (tf : TinyFrame wLen wId wType) (b : Nat) :
    Option (TinyFrame wLen wId wType × Option Emit) :=
  let st := collectCksumStep tf b
  let tf2 : TinyFrame wLen wId wType := { tf with recvCksum := st.1 }
  if st.2 then
    let tf3 : TinyFrame wLen wId wType := { tf2 with partLen := 0 }
    if tf3.cksum.sum tf3.data = tf3.recvCksum then
      let r := handleReceived tf3
      some (resetParser r.1, some (r.2.1, r.2.2))
    else some (resetParser tf3, Option.none)
  else some (tf2, Option.none)

/-- The prelude of `accept_byte`: parser-timeout check, clearing
`parser_timeout_ticks`, and the eager `begin_frame!` when no SOF byte is
configured. -/
def acceptPrelude (tf : TinyFrame wLen wId wType) : TinyFrame wLen wId wType :=
  let tf2 := match tf.parserTimeout with
    | some pt => if tf.parserTimeoutTicks > pt then resetParser tf else tf
    | Option.none => tf
  let tf3 : TinyFrame wLen wId wType := { tf2 with parserTimeoutTicks := 0 }
  if tf3.sofByte = Option.none ∧ tf3.state = ParserState.sof then beginFrame tf3 else tf3

/-- `TinyFrame::accept_byte`.  `none` marks a Rust panic (the
`Len::from_usize(part_len).unwrap()` in the `Data` state); otherwise the
new instance state and the frame dispatched by this byte, if any. -/
def acceptByte (tf : TinyFrame wLen wId wType) (b : Nat) :
    Option (TinyFrame wLen wId wType × Option Emit) :=
  let tf2 := acceptPrelude tf
  match tf2.state with
  | .sof => stepSof tf2 b
  | .id => stepId tf2 b
  | .len => stepLen tf2 b
  | .type => stepType tf2 b
  | .headCksum => stepHeadCksum tf2 b
  | .data => stepData tf2 b
  | .dataCksum => stepDataCksum tf2 b

/-- `TinyFrame::accept`: feed a buffer byte by byte, collecting the frames
dispatched along the way; `none` when some byte panicked. -/
def accept (tf : TinyFrame wLen wId wType) :
    List Nat → Option (TinyFrame wLen wId wType × List Emit)
  | [] => some (tf, [])
  | b :: bs =>
    match acceptByte tf b with
    | Option.none => none
    | some (tf', em) =>
      match accept tf' bs with
      | Option.none => none
      | some (tf'', ems) => some (tf'', em.toList ++ ems)

/-- Events observable by the integrator during `send_frame`: the
`claim_tx` hook, one call of the write sink with a byte slice, and the
`release_tx` hook. -/
inductive TxEvent where
  | claimTx
  | write (bytes : List Nat)
  | releaseTx
deriving DecidableEq, Repr

/-- Outcome of `send_frame`: success, a `SendError`, or nontermination of
the chunk loop (only possible with `chunk_size = 0`). -/
inductive SendResult where
  | ok
  | err (e : SendError)
  | diverge
deriving DecidableEq, Repr

/-- `TinyFrame::next_id`: return the current `next_id`, then increment it. -/
def nextIdFn (tf : TinyFrame wLen wId wType) : TinyFrame wLen wId wType × Nat :=
  ({ tf with nextId := incrementId wId tf.nextId }, tf.nextId)

/-- `TinyFrame::compose_head`: assign the frame ID (reusing `frame_id` for
responses, else drawing from `next_id`), stamp the master peer bit, store
the ID back into the message, and build the header buffer
`[SOF?] ID LEN TYPE HEAD_CKSUM`, failing with `TooLong` when the data
length does not fit the length field. -/
def composeHead (tf : TinyFrame wLen wId wType) (msg : Msg) :
    TinyFrame wLen wId wType × Msg × Except SendError (List Nat) :=
  let p := if msg.isResponse then (tf, msg.frameId) else nextIdFn tf
  let tf2 := p.1
  let id := if tf2.peerBit = Peer.master then addMasterPeerBit wId p.2 else p.2
  let msg2 := { msg with frameId := id }
  let sofPart := match tf2.sofByte with
    | some s => [s]
    | Option.none => []
  match fromUsize wLen msg2.data.length with
  | Option.none => (tf2, msg2, .error .tooLong)
  | some l =>
    let buf := sofPart ++ writeBE wId id ++ writeBE wLen l ++ writeBE wType msg2.msgType
    (tf2, msg2, .ok (tf2.cksum.appendSum buf))

/-- The body buffer of `send_frame`: the payload, with the data checksum
appended when the payload is non-empty. -/
def bodyOf (c : Checksum) (data : List Nat) : List Nat :=
  if data = [] then data else c.appendSum data

/-- The chunked write loop of `send_frame`: starting at `cursor`, write
slices of `min (message_len - cursor, chunk_size)` bytes until the cursor
reaches the end.  Returns the slices written and whether the loop
finished; `fuel` bounds the number of iterations, and running out of fuel
(which only happens when `chunk_size = 0` keeps the cursor stuck) reports
an unfinished loop. -/
def writeLoop (message : List Nat) (cs : Nat) : Nat → Nat → List (List Nat) × Bool
  | 0, cursor => ([], decide (¬ cursor < message.length))
  | fuel + 1, cursor =>
    if cursor < message.length then
      let chunk := min (message.length - cursor) cs
      let slice := (message.drop cursor).take chunk
      let r := writeLoop message cs fuel (cursor + chunk)
      (slice :: r.1, r.2)
    else ([], true)

/-- Result record of `send_frame`: the instance afterwards, the message
(with its `frame_id` updated), the result, and the observable event
trace. -/
structure SendOutcome (wLen wId wType : Nat) where
  tf : TinyFrame wLen wId wType
  msg : Msg
  result : SendResult
  trace : List TxEvent

/-- `TinyFrame::send_frame`: call `claim_tx` when configured, compose the
header (errors propagate, after the header checksum the ID is already
consumed), register the response listener when given, build the body,
fail with `NoWrite` when no write sink is configured, emit the frame in
chunks of at most `chunk_size` bytes, and call `release_tx` when
configured. -/
def sendFrame (tf : TinyFrame wLen wId wType) (msg : Msg)
    (listener : Option ((Msg → ListenerResult) × Option Nat)) : SendOutcome wLen wId wType :=
  let trace0 : List TxEvent := if tf.hasClaimTx then [.claimTx] else []
  let c := composeHead tf msg
  match c.2.2 with
  | .error e => ⟨c.1, c.2.1, .err e, trace0⟩
  | .ok head =>
    let tf2 := c.1
    let msg2 := c.2.1
    let tf3 := match listener with
      | some l => addIdListener tf2 msg2.frameId l.1 l.2
      | Option.none => tf2
    let message := head ++ bodyOf tf3.cksum msg2.data
    if tf3.hasWrite then
      let r := writeLoop message tf3.chunkSize message.length 0
      let trace := trace0 ++ r.1.map TxEvent.write ++
        (if r.2 ∧ tf3.hasReleaseTx then [.releaseTx] else [])
      ⟨tf3, msg2, if r.2 then .ok else .diverge, trace⟩
    else ⟨tf3, msg2, .err .noWrite, trace0⟩

/-- `TinyFrame::send`. -/
def send (tf : TinyFrame wLen wId wType) (msg : Msg) : SendOutcome wLen wId wType :=
  sendFrame tf msg Option.none

/-- `TinyFrame::respond`: set `is_response` and delegate to `send`. -/
def respond (tf : TinyFrame wLen wId wType) (msg : Msg) : SendOutcome wLen wId wType :=
  send tf { msg with isResponse := true }

/-- The write-sink calls recorded in a trace. -/
def writesOf (trace : List TxEvent) : List (List Nat) :=
  trace.filterMap fun e => match e with
    | .write s => some s
    | _ => Option.none

/-- The scan phase of `TinyFrame::tick` over the ID listeners: decrement
each set `remaining_ticks` that is not 1, and collect the indices (in the
pre-removal numbering) of entries whose `remaining_ticks` is exactly 1. -/
def tickScan : List (IDListenerEntry × Option Nat) → Nat →
    List (IDListenerEntry × Option Nat) × List Nat
  | [], _ => ([], [])
  | (e, r) :: rest, i =>
    let p := tickScan rest (i + 1)
    match r with
    | some t =>
      if t = 1 then ((e, r) :: p.1, i :: p.2)
      else ((e, some (t - 1)) :: p.1, p.2)
    | Option.none => ((e, r) :: p.1, p.2)

/-- `Vec::remove`: remove the element at an index, panicking (`none`) when
the index is out of bounds. -/
def vecRemove (l : List α) (i : Nat) : Option (List α) :=
  if i < l.length then some (l.eraseIdx i) else none

/-- `TinyFrame::tick`: advance `parser_timeout_ticks`, decrement listener
timeouts, and remove the collected indices one after the other.  The
collected indices refer to the list before any removal, but each removal
shifts the remaining elements, so removing more than one entry removes
the wrong ones or panics (`none`). -/
def tick (tf : TinyFrame wLen wId wType) : Option (TinyFrame wLen wId wType) :=
  let tf2 : TinyFrame wLen wId wType :=
    { tf with parserTimeoutTicks := tf.parserTimeoutTicks + 1 }
  let p := tickScan tf2.idListeners 0
  match p.2.foldl (fun acc k => acc.bind fun ls => vecRemove ls k) (some p.1) with
  | some ls => some { tf2 with idListeners := ls }
  | Option.none => none

/-- The frame IDs assigned (stored into `frame_id`) by composing the
headers of a list of messages one after the other on the same instance. -/
def assignedIds (tf : TinyFrame wLen wId wType) : List Msg → List Nat
  | [] => []
  | m :: ms =>
    (composeHead tf m).2.1.frameId :: assignedIds (composeHead tf m).1 ms

/-- A Master instance with CRC16 checksum and a write sink (u8 fields). -/
def tfC1 : TinyFrame 1 1 1 :=
  { TinyFrame.new 1 1 1 Peer.master with cksum := Checksum.crc16, hasWrite := true }

/-- A Master loopback instance (XOR checksum) with one generic listener
whose callback returns `Close`. -/
def tfC2 : TinyFrame 1 1 1 :=
  { TinyFrame.new 1 1 1 Peer.master with
    hasWrite := true
    genericListeners := [⟨0, (fun _ => ListenerResult.close), true⟩] }

/-- An instance with two ID listeners whose remaining tick counts are both
1, so that both expire on the same tick. -/
def tfC3 : TinyFrame 1 1 1 :=
  { TinyFrame.new 1 1 1 Peer.master with
    idListeners := [(⟨0, 5, (fun _ => ListenerResult.stay), some 1, true⟩, some 1),
                    (⟨1, 6, (fun _ => ListenerResult.stay), some 1, true⟩, some 1)] }

/-- A fresh Master instance (u8 fields). -/
def tfC4 : TinyFrame 1 1 1 := TinyFrame.new 1 1 1 Peer.master

/-- A response message whose frame ID has the top bit clear. -/
def msgC4 : Msg := ⟨0, true, 0, []⟩

/-- A Master instance with write sink and both TX hooks configured. -/
def tfC5 : TinyFrame 1 1 1 :=
  { TinyFrame.new 1 1 1 Peer.master with
    hasWrite := true, hasClaimTx := true, hasReleaseTx := true }

/-- A message whose 256-byte payload does not fit a u8 length field. -/
def msgTooLong : Msg := ⟨0, false, 0, List.replicate 256 0⟩

/-- The empty non-response message. -/
def msgEmpty : Msg := ⟨0, false, 0, []⟩

/-- A Master instance with a SOF byte and a write sink (XOR checksum). -/
def tfC8 : TinyFrame 1 1 1 :=
  { TinyFrame.new 1 1 1 Peer.master with sofByte := some 1, hasWrite := true }

/-- An instance with the `None` checksum (u8 fields). -/
def tfC9 : TinyFrame 1 1 1 :=
  { TinyFrame.new 1 1 1 Peer.master with cksum := Checksum.none }

/-- A header announcing a zero-length payload (`ID=0 LEN=0 TYPE=0`, no
header checksum under `Checksum::None`) followed by 256 further bytes. -/
def bytesC9 : List Nat := [0, 0, 0] ++ List.replicate 256 0

/-- C1: sending the one-byte message `{type 0, data [1]}` on a Master
CRC16 instance succeeds, yet feeding the emitted frame bytes back into
the parser dispatches no message at all: the checksum collector never
increments `part_len`, so the two-byte head checksum never completes and
the round-trip claimed by the spec fails for the CRC16 (and CRC32)
configurations. -/
theorem c1_crc16_frame_drops_roundtrip :
    (sendFrame tfC1 ⟨0, false, 0, [1]⟩ Option.none).result = SendResult.ok ∧
    (accept (sendFrame tfC1 ⟨0, false, 0, [1]⟩ Option.none).tf
        ((writesOf (sendFrame tfC1 ⟨0, false, 0, [1]⟩ Option.none).trace).flatten)).map
      Prod.snd = some [] := by
  decide

/-- C2: a generic listener whose callback returns `Close` is dispatched
for a first frame, stays in the registry (the removal ran against the
swapped-out empty registry), and is invoked again for the next identical
frame — refuting the claim that a `Close`-returning listener is removed
before the next frame and never invoked again. -/
theorem c2_close_listener_fires_again :
    (accept (sendFrame tfC2 ⟨0, false, 0, [7]⟩ Option.none).tf
        ([128, 1, 0, 126, 7, 248] ++ [128, 1, 0, 126, 7, 248])).map
      (fun p => (p.2, p.1.genericListeners.map (fun e => e.uid))) =
    some ([(⟨128, false, 0, [7]⟩, [0]), (⟨128, false, 0, [7]⟩, [0])], [0]) := by
  decide

/-- C3: calling `tick()` on an instance with two ID listeners that both
expire on this tick panics: the collected removal indices refer to the
pre-removal list, the first removal shifts the second index out of
bounds, and `Vec::remove` panics — refuting the claim that exactly the
expired listeners are removed for any number of simultaneous expiries. -/
theorem c3_tick_two_expiring_panics : (tick tfC3).isNone = true := by
  decide

set_option maxRecDepth 100000 in
/-- C9: with the `None` checksum, a frame header announcing length 0 puts
the parser into the `Data` state, where it never satisfies
`len == part_len`; after 256 further bytes `Len::from_usize(part_len)`
returns `None` for a u8 length field and the `unwrap` panics, refuting
the claim that `accept_byte` returns normally on every input. -/
theorem c9_zero_len_none_cksum_panics : (accept tfC9 bytesC9).isNone = true := by
  decide

/-- C4 counterexample: on a Master instance, sending a response whose
`frame_id` is 0 stores `0x80` (the master peer bit is stamped onto the
reused ID), not the unchanged `frame_id` claimed. -/
theorem c4_response_id_changed_counterexample :
    ¬ (composeHead tfC4 msgC4).2.1.frameId = msgC4.frameId := by
  decide

set_option maxRecDepth 100000 in
/-- C5 counterexample: a send on an instance with both TX hooks
configured that fails with `TooLong` invokes `claim_tx` but never
`release_tx`, refuting the claim that `release_tx` is invoked exactly
once even for calls returning `TooLong` or `NoWrite`. -/
theorem c5_release_skipped_counterexample :
    (sendFrame tfC5 msgTooLong Option.none).result = SendResult.err SendError.tooLong ∧
    (sendFrame tfC5 msgTooLong Option.none).trace = [TxEvent.claimTx] := by
  decide

theorem composeHead_fst (tf : TinyFrame wLen wId wType) (msg : Msg) :
    (composeHead tf msg).1 =
      if msg.isResponse then tf else { tf with nextId := incrementId wId tf.nextId } := by
  unfold composeHead nextIdFn
  cases msg.isResponse <;> simp <;> split <;> rfl

theorem composeHead_msg_data (tf : TinyFrame wLen wId wType) (msg : Msg) :
    (composeHead tf msg).2.1.data = msg.data := by
  unfold composeHead nextIdFn
  cases msg.isResponse <;> simp <;> split <;> rfl

theorem composeHead_frameId (tf : TinyFrame wLen wId wType) (msg : Msg) :
    (composeHead tf msg).2.1.frameId =
      (if tf.peerBit = Peer.master
        then addMasterPeerBit wId (if msg.isResponse then msg.frameId else tf.nextId)
        else (if msg.isResponse then msg.frameId else tf.nextId)) := by
  unfold composeHead nextIdFn
  cases msg.isResponse <;> simp <;> split <;> rfl

/-- C4 (amended): for a message sent with `is_response` true, the ID
stored back into `msg.frame_id` (and written to the wire) is the
message's existing `frame_id` unchanged on a Slave peer, and that
`frame_id` with the master peer bit stamped on top on a Master peer; the
`next_id` counter is not advanced for responses. -/
theorem c4_response_id_amended (tf : TinyFrame wLen wId wType) (msg : Msg)
    (h : msg.isResponse = true) :
    (composeHead tf msg).2.1.frameId =
      (if tf.peerBit = Peer.master then addMasterPeerBit wId msg.frameId else msg.frameId) ∧
    (composeHead tf msg).1.nextId = tf.nextId := by
  refine ⟨?_, ?_⟩
  · rw [composeHead_frameId, h]
    simp
  · rw [composeHead_fst, h]
    simp

/-- Witness for `c4_response_id_amended` at a concrete Master instance
and response message. -/
theorem c4_response_id_amended_witness :
    msgC4.isResponse = true ∧
    ((composeHead tfC4 msgC4).2.1.frameId =
      (if tfC4.peerBit = Peer.master then addMasterPeerBit 1 msgC4.frameId else msgC4.frameId) ∧
    (composeHead tfC4 msgC4).1.nextId = tfC4.nextId) :=
  ⟨by decide, c4_response_id_amended tfC4 msgC4 (by decide)⟩

/-- C10: a non-response `send` that fails with `TooLong` or `NoWrite` has
nonetheless advanced `next_id`: the ID is drawn in `compose_head` before
the length check and the write-sink check, and nothing restores it on the
error paths. -/
theorem c10_failed_send_consumes_id (tf : TinyFrame wLen wId wType) (msg : Msg)
    (h : msg.isResponse = false)
    (_hr : (send tf msg).result = SendResult.err SendError.tooLong ∨
          (send tf msg).result = SendResult.err SendError.noWrite) :
    (send tf msg).tf.nextId = incrementId wId tf.nextId := by
  have hfst := composeHead_fst tf msg
  rw [h] at hfst
  simp only [if_false, Bool.false_eq_true] at hfst
  unfold send sendFrame
  rcases hce : composeHead tf msg with ⟨tf2, msg2, res⟩
  simp only [hce]
  have h2 : tf2.nextId = incrementId wId tf.nextId := by
    have h3 : (composeHead tf msg).1 = tf2 := by rw [hce]
    rw [← h3, hfst]
  cases res with
  | error e => simpa using h2
  | ok head => split <;> (try split) <;> simpa using h2

/-- Witness for `c10_failed_send_consumes_id`: on a fresh Master instance
without a write sink, a non-response send fails with `NoWrite` and the
counter has advanced from 0 to 1. -/
theorem c10_failed_send_consumes_id_witness :
    msgEmpty.isResponse = false ∧
    ((send tfC4 msgEmpty).result = SendResult.err SendError.tooLong ∨
     (send tfC4 msgEmpty).result = SendResult.err SendError.noWrite) ∧
    (send tfC4 msgEmpty).tf.nextId = incrementId 1 tfC4.nextId :=
  ⟨by decide, Or.inr (by decide),
   c10_failed_send_consumes_id tfC4 msgEmpty (by decide) (Or.inr (by decide))⟩

theorem composeHead_fst_fields (tf : TinyFrame wLen wId wType) (msg : Msg) :
    (composeHead tf msg).1.cksum = tf.cksum ∧
    (composeHead tf msg).1.chunkSize = tf.chunkSize ∧
    (composeHead tf msg).1.hasWrite = tf.hasWrite ∧
    (composeHead tf msg).1.hasClaimTx = tf.hasClaimTx ∧
    (composeHead tf msg).1.hasReleaseTx = tf.hasReleaseTx := by
  rw [composeHead_fst]
  split <;> exact ⟨rfl, rfl, rfl, rfl, rfl⟩

theorem sendFrame_ok_shape (tf : TinyFrame wLen wId wType) (msg : Msg)
    (l : Option ((Msg → ListenerResult) × Option Nat))
    (hok : (sendFrame tf msg l).result = SendResult.ok) :
    ∃ head slices,
      (composeHead tf msg).2.2 = Except.ok head ∧
      writeLoop (head ++ bodyOf tf.cksum msg.data) tf.chunkSize
        (head ++ bodyOf tf.cksum msg.data).length 0 = (slices, true) ∧
      (sendFrame tf msg l).trace =
        (if tf.hasClaimTx then [TxEvent.claimTx] else []) ++ slices.map TxEvent.write ++
        (if tf.hasReleaseTx then [TxEvent.releaseTx] else []) := by
  have hdata := composeHead_msg_data tf msg
  obtain ⟨hck, hcs, hhw, hhc, hhr⟩ := composeHead_fst_fields tf msg
  unfold sendFrame at hok ⊢
  rcases hce : composeHead tf msg with ⟨tf2, msg2, res⟩
  rw [hce] at hdata hck hcs hhw hhc hhr
  simp only at hdata hck hcs hhw hhc hhr
  simp only [hce] at hok ⊢
  cases res with
  | error e => simp at hok
  | ok head =>
    cases l with
    | none =>
      simp only [hdata, hck, hcs] at hok ⊢
      by_cases hwt : tf2.hasWrite = true
      · simp only [hwt, if_true] at hok ⊢
        rcases hwl : writeLoop (head ++ bodyOf tf.cksum msg.data) tf.chunkSize
            (head ++ bodyOf tf.cksum msg.data).length 0 with ⟨slices, done⟩
        cases done with
        | false =>
          simp only [List.length_append] at hwl
          simp [hwl] at hok
        | true =>
          refine ⟨head, slices, rfl, hwl, ?_⟩
          simp [hhc, hhr]
      · simp [hwt] at hok
    | some p =>
      simp only [addIdListener, hdata, hck, hcs] at hok ⊢
      by_cases hwt : tf2.hasWrite = true
      · simp only [hwt, if_true] at hok ⊢
        rcases hwl : writeLoop (head ++ bodyOf tf.cksum msg.data) tf.chunkSize
            (head ++ bodyOf tf.cksum msg.data).length 0 with ⟨slices, done⟩
        cases done with
        | false =>
          simp only [List.length_append] at hwl
          simp [hwl] at hok
        | true =>
          refine ⟨head, slices, rfl, hwl, ?_⟩
          simp [hhc, hhr]
      · simp [hwt] at hok

theorem sendFrame_err_trace (tf : TinyFrame wLen wId wType) (msg : Msg)
    (l : Option ((Msg → ListenerResult) × Option Nat)) (e : SendError)
    (he : (sendFrame tf msg l).result = SendResult.err e) :
    (sendFrame tf msg l).trace = (if tf.hasClaimTx then [TxEvent.claimTx] else []) := by
  obtain ⟨hck, hcs, hhw, hhc, hhr⟩ := composeHead_fst_fields tf msg
  unfold sendFrame at he ⊢
  rcases hce : composeHead tf msg with ⟨tf2, msg2, res⟩
  rw [hce] at hck hcs hhw hhc hhr
  simp only at hck hcs hhw hhc hhr
  simp only [hce] at he ⊢
  cases res with
  | error e2 => rfl
  | ok head =>
    cases l with
    | none =>
      simp only at he ⊢
      by_cases hwt : tf2.hasWrite = true
      · simp only [hwt, if_true] at he ⊢
        split at he <;> simp at he
      · simp [hwt]
    | some p =>
      simp only [addIdListener] at he ⊢
      by_cases hwt : tf2.hasWrite = true
      · simp only [hwt, if_true] at he ⊢
        split at he <;> simp at he
      · simp [hwt]

theorem writesOf_append (a b : List TxEvent) :
    writesOf (a ++ b) = writesOf a ++ writesOf b :=
  List.filterMap_append a b _

theorem writesOf_map_write (ss : List (List Nat)) : writesOf (ss.map TxEvent.write) = ss := by
  induction ss with
  | nil => rfl
  | cons s ss ih =>
    simpa [writesOf, List.filterMap_cons] using ih

theorem writeLoop_zero_cs (message : List Nat) (fuel : Nat) :
    ∀ cursor, cursor < message.length → (writeLoop message 0 fuel cursor).2 = false := by
  induction fuel with
  | zero => intro cursor h; simp [writeLoop, h]
  | succ n ih =>
    intro cursor h
    simpa [writeLoop, h, Nat.min_zero] using ih cursor h

theorem writeLoop_spec (message : List Nat) (cs : Nat) :
    ∀ fuel cursor slices, writeLoop message cs fuel cursor = (slices, true) →
      slices.flatten = message.drop cursor ∧ ∀ s ∈ slices, s.length ≤ cs ∧ s ≠ [] := by
  intro fuel
  induction fuel with
  | zero =>
    intro cursor slices h
    simp only [writeLoop, Prod.mk.injEq] at h
    obtain ⟨h1, h2⟩ := h
    subst h1
    refine ⟨?_, by simp⟩
    rw [List.drop_eq_nil_of_le (by simpa using of_decide_eq_true h2)]
    rfl
  | succ n ih =>
    intro cursor slices h
    by_cases hcur : cursor < message.length
    · rw [writeLoop, if_pos hcur] at h
      simp only [Prod.mk.injEq] at h
      obtain ⟨h1, h2⟩ := h
      have hrec : writeLoop message cs n
          (cursor + min (message.length - cursor) cs) =
          ((writeLoop message cs n (cursor + min (message.length - cursor) cs)).1, true) := by
        rw [← h2]
      have hchunk : 0 < min (message.length - cursor) cs := by
        rcases Nat.eq_zero_or_pos cs with hcs | hcs
        · subst hcs
          rw [Nat.min_zero, Nat.add_zero] at h2
          rw [writeLoop_zero_cs message n cursor hcur] at h2
          cases h2
        · exact lt_min_iff.mpr ⟨by omega, hcs⟩
      obtain ⟨ihf, ihp⟩ := ih _ _ hrec
      subst h1
      constructor
      · rw [List.flatten_cons, ihf, ← List.drop_drop, List.take_append_drop]
      · intro s hs
        rw [List.mem_cons] at hs
        rcases hs with rfl | hs
        · have hlen : ((message.drop cursor).take (min (message.length - cursor) cs)).length
              = min (message.length - cursor) cs := by
            simp only [List.length_take, List.length_drop]
            exact min_eq_left (min_le_left _ _)
          constructor
          · rw [hlen]
            exact min_le_right _ _
          · intro hnil
            rw [hnil] at hlen
            simp only [List.length_nil] at hlen
            omega
        · exact ihp s hs
    · rw [writeLoop, if_neg hcur] at h
      simp only [Prod.mk.injEq] at h
      obtain ⟨h1, _⟩ := h
      subst h1
      refine ⟨?_, by simp⟩
      rw [List.drop_eq_nil_of_le (by omega)]
      rfl

/-- C5 (amended): with `claim_tx` and `release_tx` configured, a
successful `send`/`query`/`respond` produces the event trace
`claim_tx`, then the write-sink calls, then `release_tx` — each hook
exactly once, before the first and after the last write respectively.
A call failing with `TooLong` or `NoWrite`, however, invokes `claim_tx`
and then returns early: `release_tx` is not invoked on the error paths. -/
theorem c5_tx_hooks_amended (tf : TinyFrame wLen wId wType) (msg : Msg)
    (l : Option ((Msg → ListenerResult) × Option Nat))
    (hc : tf.hasClaimTx = true) (hr : tf.hasReleaseTx = true) :
    ((sendFrame tf msg l).result = SendResult.ok →
      ∃ ss : List (List Nat), (sendFrame tf msg l).trace =
        TxEvent.claimTx :: (ss.map TxEvent.write ++ [TxEvent.releaseTx])) ∧
    (((sendFrame tf msg l).result = SendResult.err SendError.tooLong ∨
      (sendFrame tf msg l).result = SendResult.err SendError.noWrite) →
      (sendFrame tf msg l).trace = [TxEvent.claimTx]) := by
  constructor
  · intro hok
    obtain ⟨head, slices, _, _, htr⟩ := sendFrame_ok_shape tf msg l hok
    refine ⟨slices, ?_⟩
    rw [htr, hc, hr]
    simp
  · intro he
    rcases he with he | he <;>
      (rw [sendFrame_err_trace tf msg l _ he, hc]; simp)

/-- Witness for `c5_tx_hooks_amended` at a concrete instance with both
hooks configured and a successful three-byte send. -/
theorem c5_tx_hooks_amended_witness :
    tfC5.hasClaimTx = true ∧ tfC5.hasReleaseTx = true ∧
    (((sendFrame tfC5 ⟨0, false, 0, [1, 2, 3]⟩ Option.none).result = SendResult.ok →
      ∃ ss : List (List Nat), (sendFrame tfC5 ⟨0, false, 0, [1, 2, 3]⟩ Option.none).trace =
        TxEvent.claimTx :: (ss.map TxEvent.write ++ [TxEvent.releaseTx])) ∧
    (((sendFrame tfC5 ⟨0, false, 0, [1, 2, 3]⟩ Option.none).result =
        SendResult.err SendError.tooLong ∨
      (sendFrame tfC5 ⟨0, false, 0, [1, 2, 3]⟩ Option.none).result =
        SendResult.err SendError.noWrite) →
      (sendFrame tfC5 ⟨0, false, 0, [1, 2, 3]⟩ Option.none).trace = [TxEvent.claimTx])) :=
  ⟨rfl, rfl, c5_tx_hooks_amended tfC5 ⟨0, false, 0, [1, 2, 3]⟩ Option.none rfl rfl⟩

/-- C7: a successful send writes the encoded frame — the header built by
`compose_head` (optional SOF, ID, length, type, header checksum) followed
by the payload with its data checksum when the payload is non-empty —
through the write sink as consecutive non-empty slices of at most
`chunk_size` bytes each, whose concatenation is exactly the full frame. -/
theorem c7_chunked_writes (tf : TinyFrame wLen wId wType) (msg : Msg)
    (l : Option ((Msg → ListenerResult) × Option Nat))
    (h : (sendFrame tf msg l).result = SendResult.ok) :
    ∃ head, (composeHead tf msg).2.2 = Except.ok head ∧
      (writesOf (sendFrame tf msg l).trace).flatten = head ++ bodyOf tf.cksum msg.data ∧
      ∀ s ∈ writesOf (sendFrame tf msg l).trace, s.length ≤ tf.chunkSize ∧ s ≠ [] := by
  obtain ⟨head, slices, hh, hwl, htr⟩ := sendFrame_ok_shape tf msg l h
  obtain ⟨hflat, hprops⟩ := writeLoop_spec _ _ _ _ _ hwl
  have hclaim : writesOf (if tf.hasClaimTx = true then [TxEvent.claimTx] else []) = [] := by
    split <;> rfl
  have hrel : writesOf (if tf.hasReleaseTx = true then [TxEvent.releaseTx] else []) = [] := by
    split <;> rfl
  have hwof : writesOf (sendFrame tf msg l).trace = slices := by
    rw [htr, writesOf_append, writesOf_append, hclaim, hrel, writesOf_map_write]
    simp
  refine ⟨head, hh, ?_, ?_⟩
  · rw [hwof, hflat, List.drop_zero]
  · rw [hwof]
    exact hprops

/-- Witness for `c7_chunked_writes` at a concrete successful send. -/
theorem c7_chunked_writes_witness :
    (sendFrame tfC5 ⟨0, false, 1, [9, 9]⟩ Option.none).result = SendResult.ok ∧
    (∃ head, (composeHead tfC5 ⟨0, false, 1, [9, 9]⟩).2.2 = Except.ok head ∧
      (writesOf (sendFrame tfC5 ⟨0, false, 1, [9, 9]⟩ Option.none).trace).flatten =
        head ++ bodyOf tfC5.cksum (Msg.data ⟨0, false, 1, [9, 9]⟩) ∧
      ∀ s ∈ writesOf (sendFrame tfC5 ⟨0, false, 1, [9, 9]⟩ Option.none).trace,
        s.length ≤ tfC5.chunkSize ∧ s ≠ []) :=
  ⟨by decide, c7_chunked_writes tfC5 ⟨0, false, 1, [9, 9]⟩ Option.none (by decide)⟩

theorem addMasterPeerBit_eq (w v : Nat) : addMasterPeerBit w v = v ||| 2 ^ (8 * w - 1) := by
  simp [addMasterPeerBit, Nat.shiftLeft_eq]

theorem lor_two_pow_testBit_self (a k : Nat) : (a ||| 2 ^ k).testBit k = true := by
  simp [Nat.testBit_lor, Nat.testBit_two_pow_self]

theorem lor_two_pow_mod (a k : Nat) (ha : a < 2 ^ k) : (a ||| 2 ^ k) % 2 ^ k = a := by
  apply Nat.eq_of_testBit_eq
  intro i
  rw [Nat.testBit_mod_two_pow, Nat.testBit_lor, Nat.testBit_two_pow]
  by_cases hik : i < k
  · simp [hik, Nat.ne_of_gt hik]
  · have h2 : a.testBit i = false :=
      Nat.testBit_lt_two_pow
        (lt_of_lt_of_le ha (Nat.pow_le_pow_right (by norm_num) (le_of_not_lt hik)))
    simp [hik, h2]

theorem incrementId_eq_mod (w v : Nat) (hw : 0 < w) (hv : v < 2 ^ (8 * w - 1)) :
    incrementId w v = (v + 1) % 2 ^ (8 * w - 1) := by
  have h8 : 8 * w = (8 * w - 1) + 1 := by omega
  have hM : 2 ^ (8 * w) = 2 ^ (8 * w - 1) * 2 := by
    nth_rewrite 1 [h8]
    rw [pow_succ]
  have hMpos : 0 < 2 ^ (8 * w - 1) := Nat.pos_pow_of_pos _ (by norm_num)
  have hmask : (2 ^ (8 * w) - 1) >>> 1 = 2 ^ (8 * w - 1) - 1 := by
    rw [Nat.shiftRight_eq_div_pow, pow_one, hM]
    omega
  unfold incrementId
  rw [hmask, Nat.and_pow_two_sub_one_eq_mod]
  have hv1 : v + 1 < 2 ^ (8 * w) := by omega
  rw [Nat.mod_eq_of_lt hv1]

theorem assignedIds_length (msgs : List Msg) :
    ∀ tf : TinyFrame wLen wId wType, (assignedIds tf msgs).length = msgs.length := by
  induction msgs with
  | nil => intro tf; rfl
  | cons m ms ih => intro tf; simp [assignedIds, ih]

theorem assignedIds_get (msgs : List Msg) :
    ∀ tf : TinyFrame wLen wId wType, 0 < wId → tf.peerBit = Peer.master →
      tf.nextId < 2 ^ (8 * wId - 1) →
      (∀ m ∈ msgs, m.isResponse = false) →
      ∀ i, i < msgs.length →
        (assignedIds tf msgs)[i]? =
          some (((tf.nextId + i) % 2 ^ (8 * wId - 1)) ||| 2 ^ (8 * wId - 1)) := by
  induction msgs with
  | nil =>
    intro tf _ _ _ _ i hi
    simp at hi
  | cons m ms ih =>
    intro tf hw hm hn hr i hi
    have hMpos : 0 < 2 ^ (8 * wId - 1) := Nat.pos_pow_of_pos _ (by norm_num)
    have hmr : m.isResponse = false := hr m (List.mem_cons_self m ms)
    have hhead : (composeHead tf m).2.1.frameId = tf.nextId ||| 2 ^ (8 * wId - 1) := by
      rw [composeHead_frameId, hmr, hm]
      simp [addMasterPeerBit_eq]
    have hfst := composeHead_fst tf m
    rw [hmr] at hfst
    simp only [Bool.false_eq_true, if_false] at hfst
    cases i with
    | zero =>
      simp only [assignedIds, List.getElem?_cons_zero, hhead, Nat.add_zero,
        Nat.mod_eq_of_lt hn]
    | succ j =>
      have hj : j < ms.length := by simpa using hi
      have hr2 : ∀ m2 ∈ ms, m2.isResponse = false :=
        fun m2 hm2 => hr m2 (List.mem_cons_of_mem m hm2)
      have hinc := incrementId_eq_mod wId tf.nextId hw hn
      have htail := ih { tf with nextId := incrementId wId tf.nextId } hw hm
        (by rw [hinc]; exact Nat.mod_lt _ hMpos) hr2 j hj
      simp only [assignedIds, List.getElem?_cons_succ, hfst]
      rw [htail]
      simp only [hinc, Nat.mod_add_mod]
      have harith : tf.nextId + 1 + j = tf.nextId + (j + 1) := by omega
      rw [harith]

/-- C6: on a Master-peer instance whose ID counter is within the low
`8·W_id − 1` bits (as every reachable instance's counter is), the IDs
assigned to successive non-response sends all carry the master peer bit
(the most significant bit of the ID field), and the low bits of each
consecutive pair increase by exactly one modulo `2^(8·W_id − 1)`. -/
theorem c6_master_id_sequencing (tf : TinyFrame wLen wId wType) (msgs : List Msg)
    (hw : 0 < wId) (hm : tf.peerBit = Peer.master)
    (hn : tf.nextId < 2 ^ (8 * wId - 1))
    (hr : ∀ m ∈ msgs, m.isResponse = false) :
    (∀ a ∈ assignedIds tf msgs, a.testBit (8 * wId - 1) = true) ∧
    (∀ i a b, (assignedIds tf msgs)[i]? = some a →
      (assignedIds tf msgs)[i + 1]? = some b →
      b % 2 ^ (8 * wId - 1) = (a % 2 ^ (8 * wId - 1) + 1) % 2 ^ (8 * wId - 1)) := by
  have hMpos : 0 < 2 ^ (8 * wId - 1) := Nat.pos_pow_of_pos _ (by norm_num)
  constructor
  · intro a ha
    rw [List.mem_iff_getElem?] at ha
    obtain ⟨i, hi⟩ := ha
    have hilen : i < msgs.length := by
      have := (List.getElem?_eq_some.mp hi).1
      rwa [assignedIds_length] at this
    rw [assignedIds_get msgs tf hw hm hn hr i hilen] at hi
    obtain rfl : (((tf.nextId + i) % 2 ^ (8 * wId - 1)) ||| 2 ^ (8 * wId - 1)) = a :=
      Option.some.inj hi
    exact lor_two_pow_testBit_self _ _
  · intro i a b ha hb
    have hblen : i + 1 < msgs.length := by
      have := (List.getElem?_eq_some.mp hb).1
      rwa [assignedIds_length] at this
    have halen : i < msgs.length := by omega
    rw [assignedIds_get msgs tf hw hm hn hr i halen] at ha
    rw [assignedIds_get msgs tf hw hm hn hr (i + 1) hblen] at hb
    obtain rfl : (((tf.nextId + i) % 2 ^ (8 * wId - 1)) ||| 2 ^ (8 * wId - 1)) = a :=
      Option.some.inj ha
    obtain rfl : (((tf.nextId + (i + 1)) % 2 ^ (8 * wId - 1)) ||| 2 ^ (8 * wId - 1)) = b :=
      Option.some.inj hb
    rw [lor_two_pow_mod _ _ (Nat.mod_lt _ hMpos), lor_two_pow_mod _ _ (Nat.mod_lt _ hMpos),
      Nat.mod_add_mod]
    have harith : tf.nextId + i + 1 = tf.nextId + (i + 1) := by omega
    rw [harith]

/-- Witness for `c6_master_id_sequencing`: three empty non-response sends
on a fresh Master instance with a one-byte ID field. -/
theorem c6_master_id_sequencing_witness :
    0 < 1 ∧ tfC4.peerBit = Peer.master ∧ tfC4.nextId < 2 ^ (8 * 1 - 1) ∧
    (∀ m ∈ [msgEmpty, msgEmpty, msgEmpty], m.isResponse = false) ∧
    ((∀ a ∈ assignedIds tfC4 [msgEmpty, msgEmpty, msgEmpty],
        a.testBit (8 * 1 - 1) = true) ∧
    (∀ i a b, (assignedIds tfC4 [msgEmpty, msgEmpty, msgEmpty])[i]? = some a →
      (assignedIds tfC4 [msgEmpty, msgEmpty, msgEmpty])[i + 1]? = some b →
      b % 2 ^ (8 * 1 - 1) = (a % 2 ^ (8 * 1 - 1) + 1) % 2 ^ (8 * 1 - 1))) :=
  ⟨by decide, by decide, by decide, by decide,
   c6_master_id_sequencing tfC4 [msgEmpty, msgEmpty, msgEmpty]
     (by decide) (by decide) (by decide) (by decide)⟩

theorem resetParser_sof (tf : TinyFrame wLen wId wType) (h : tf.state = ParserState.sof) :
    resetParser tf = tf := by
  cases tf
  simp_all [resetParser]

theorem acceptPrelude_sof (tf : TinyFrame wLen wId wType) (h : tf.state = ParserState.sof) :
    acceptPrelude tf =
      if tf.sofByte = Option.none then beginFrame { tf with parserTimeoutTicks := 0 }
      else { tf with parserTimeoutTicks := 0 } := by
  unfold acceptPrelude
  rcases hpt : tf.parserTimeout with _ | pt
  · simp only [hpt]
    by_cases hsof : tf.sofByte = Option.none
    · simp [hsof, h]
    · simp [hsof, h]
  · simp only [hpt, resetParser_sof tf h, ite_self]
    by_cases hsof : tf.sofByte = Option.none
    · simp [hsof, h]
    · simp [hsof, h]

theorem acceptByte_sof_skip (tf : TinyFrame wLen wId wType) (S b : Nat)
    (h : tf.state = ParserState.sof) (hs : tf.sofByte = some S) (hb : b ≠ S) :
    acceptByte tf b = some ({ tf with parserTimeoutTicks := 0 }, Option.none) := by
  unfold acceptByte
  rw [acceptPrelude_sof tf h]
  have hnot : ¬ tf.sofByte = Option.none := by simp [hs]
  rw [if_neg hnot]
  simp only [h]
  unfold stepSof
  simp only [hs]
  rw [if_neg hb]

theorem accept_sof_ticks (tf : TinyFrame wLen wId wType) (k : Nat) (bs : List Nat)
    (h : tf.state = ParserState.sof) :
    (accept ({ tf with parserTimeoutTicks := k } : TinyFrame wLen wId wType) bs).map
      Prod.snd = (accept tf bs).map Prod.snd := by
  cases bs with
  | nil => rfl
  | cons b rest =>
    have hb : acceptByte ({ tf with parserTimeoutTicks := k }) b = acceptByte tf b := by
      unfold acceptByte
      rw [acceptPrelude_sof ({ tf with parserTimeoutTicks := k } : TinyFrame wLen wId wType) h,
        acceptPrelude_sof tf h]
    simp only [accept, hb]

/-- C8: with a SOF byte configured, any finite garbage consisting of
bytes different from the SOF byte may be prepended to an input without
changing the frames the parser dispatches: in the `Sof` state every
non-SOF byte is ignored. -/
theorem c8_sof_resync (tf : TinyFrame wLen wId wType) (S : Nat) (g bs : List Nat)
    (h : tf.state = ParserState.sof) (hs : tf.sofByte = some S)
    (hg : ∀ b ∈ g, b ≠ S) :
    (accept tf (g ++ bs)).map Prod.snd = (accept tf bs).map Prod.snd := by
  induction g generalizing tf with
  | nil => simp
  | cons b g ih =>
    have hb : b ≠ S := hg b (List.mem_cons_self b g)
    have hskip := acceptByte_sof_skip tf S b h hs hb
    have h0 : ({ tf with parserTimeoutTicks := 0 } : TinyFrame wLen wId wType).state =
        ParserState.sof := h
    have hs0 : ({ tf with parserTimeoutTicks := 0 } : TinyFrame wLen wId wType).sofByte =
        some S := hs
    have hstep : (accept tf ((b :: g) ++ bs)).map Prod.snd =
        (accept ({ tf with parserTimeoutTicks := 0 } : TinyFrame wLen wId wType)
          (g ++ bs)).map Prod.snd := by
      rcases haux : accept ({ tf with parserTimeoutTicks := 0 } :
          TinyFrame wLen wId wType) (g ++ bs) with _ | p
      · simp [accept, hskip, haux]
      · simp [accept, hskip, haux]
    rw [hstep]
    rw [ih _ h0 hs0 (fun b2 hb2 => hg b2 (List.mem_cons_of_mem b hb2))]
    exact accept_sof_ticks tf 0 bs h

/-- Witness for `c8_sof_resync`: garbage `[2, 3]` before a complete
XOR-checksummed frame on an instance with SOF byte 1. -/
theorem c8_sof_resync_witness :
    tfC8.state = ParserState.sof ∧ tfC8.sofByte = some 1 ∧
    (∀ b ∈ [2, 3], b ≠ 1) ∧
    (accept tfC8 ([2, 3] ++ [1, 128, 0, 0, 126])).map Prod.snd =
      (accept tfC8 [1, 128, 0, 0, 126]).map Prod.snd :=
  ⟨by decide, by decide, by decide,
   c8_sof_resync tfC8 1 [2, 3] [1, 128, 0, 0, 126] (by decide) (by decide) (by decide)⟩
